import Mathlib

/-!
# Verification of the 8cubeDB query-construction layer

Shallow embedding of `src/api.py`: the gene/identifier normalization helper,
the schema-discovery helpers, the five query shapes (their filter/sort
semantics and, where the claims concern SQL text, the literal query strings
built by the source's f-strings), and the configuration endpoint.

Python strings are modelled as Lean `String`; `str.upper`/`str.lower`/
`str.capitalize` act on basic-latin letters exactly as Python does on ASCII
input (the stored identifiers are ASCII). SQLite `REAL` values are modelled
as `Rat`: every claim about them is purely order-theoretic.
-/

namespace EightCube

/-- `str.upper()` (per-character basic-latin uppercasing). -/
def pyUpper (s : String) : String := String.mk (s.data.map Char.toUpper)

/-- `str.lower()` (per-character basic-latin lowercasing). -/
def pyLower (s : String) : String := String.mk (s.data.map Char.toLower)

/-- `str.capitalize()`: first character uppercased, all remaining characters
lowercased. -/
def pyCapitalize (s : String) : String :=
  match s.data with
  | [] => String.mk []
  | c :: cs => String.mk (Char.toUpper c :: cs.map Char.toLower)

/-- `g.upper().startswith("ENS")` from `normalize_gene_inputs`. -/
def ensLike (g : String) : Bool :=
  match (pyUpper g).data with
  | 'E' :: 'N' :: 'S' :: _ => true
  | _ => false

/-- `normalize_gene_inputs` from `src/api.py`: Ensembl-looking tokens are
uppercased, anything else gets `str.capitalize()`. -/
def normalize_gene_inputs : List String → List String
  | [] => []
  | g :: gs =>
    (if ensLike g then pyUpper g else pyCapitalize g) :: normalize_gene_inputs gs

/-- `g.replace(" ", "_")` used when building download filenames. -/
def pySpaceToUnderscore (s : String) : String :=
  String.mk (s.data.map fun c => if c = ' ' then '_' else c)

/-! ## Character-case lemmas -/

theorem char_toNat_ofNat {n : Nat} (h : n < 55296) : (Char.ofNat n).toNat = n := by
  have hv : n.isValidChar := Or.inl h
  rw [Char.ofNat, dif_pos hv]
  rfl

theorem toUpper_toUpper (c : Char) : c.toUpper.toUpper = c.toUpper := by
  unfold Char.toUpper
  by_cases h : c.toNat ≥ 97 ∧ c.toNat ≤ 122
  · rw [if_pos h]
    have ht : (Char.ofNat (c.toNat - 32)).toNat = c.toNat - 32 :=
      char_toNat_ofNat (by omega)
    rw [if_neg (by omega)]
  · rw [if_neg h, if_neg h]

theorem toLower_toLower (c : Char) : c.toLower.toLower = c.toLower := by
  unfold Char.toLower
  by_cases h : c.toNat ≥ 65 ∧ c.toNat ≤ 90
  · rw [if_pos h]
    have ht : (Char.ofNat (c.toNat + 32)).toNat = c.toNat + 32 :=
      char_toNat_ofNat (by omega)
    rw [if_neg (by omega)]
  · rw [if_neg h, if_neg h]

theorem toUpper_toLower (c : Char) : c.toLower.toUpper = c.toUpper := by
  unfold Char.toLower Char.toUpper
  by_cases h : c.toNat ≥ 65 ∧ c.toNat ≤ 90
  · rw [if_pos h]
    have ht : (Char.ofNat (c.toNat + 32)).toNat = c.toNat + 32 :=
      char_toNat_ofNat (by omega)
    rw [if_pos (by omega), if_neg (by omega), ht]
    have : c.toNat + 32 - 32 = c.toNat := by omega
    rw [this, Char.ofNat_toNat]
  · rw [if_neg h]

theorem toLower_toUpper (c : Char) : c.toUpper.toLower = c.toLower := by
  unfold Char.toLower Char.toUpper
  by_cases h : c.toNat ≥ 97 ∧ c.toNat ≤ 122
  · rw [if_pos h]
    have ht : (Char.ofNat (c.toNat - 32)).toNat = c.toNat - 32 :=
      char_toNat_ofNat (by omega)
    rw [if_pos (by omega), if_neg (by omega), ht]
    have : c.toNat - 32 + 32 = c.toNat := by omega
    rw [this, Char.ofNat_toNat]
  · rw [if_neg h]

theorem toUpper_congr_of_toLower_eq {c d : Char} (h : c.toLower = d.toLower) :
    c.toUpper = d.toUpper := by
  rw [← toUpper_toLower c, ← toUpper_toLower d, h]

/-! ## Data model

One row of `table_1` (field names follow the SQLite column names used by the
queries in `src/api.py`). -/

structure Row where
  gene_name : String
  ensembl_id : String
  Analysis_level : String
  Analysis_type : String
  Psi_mean : Rat
  Psi_std : Rat
  Zeta_mean : Rat
  Zeta_std : Rat
deriving DecidableEq, Repr

/-- One row of a per-partition `{level}_{type}` table; only the two identifier
columns are addressed by name in the code, the block-value columns are carried
as a list parallel to the table's column list. -/
structure PRow where
  gene_name : String
  ensembl_id : String
  blocks : List Rat
deriving DecidableEq, Repr

/-- A per-partition table: its column names (as reported by
`PRAGMA table_info`) and its rows. -/
structure PTable where
  columns : List String
  rows : List PRow
deriving DecidableEq, Repr

/-- The main store: `table_1` plus the dynamically named partition tables
(`none` = no such table in the store). -/
structure DB where
  table_1 : List Row
  partitions : String → Option PTable

/-- The 404/500 errors the endpoints raise (`HTTPException(status_code, detail)`).
The driver-generated exception text that the source appends to the detail
string is not modelled. -/
structure ApiErr where
  status_code : Nat
  detail : String
deriving DecidableEq, Repr

/-! ## Rank-filter endpoints (`/highly_specific`, `/non_specific`) -/

/-- The row order produced by `ORDER BY Psi_mean DESC, Zeta_mean DESC`. -/
def highOrder (r1 r2 : Row) : Prop :=
  r2.Psi_mean < r1.Psi_mean ∨ (r1.Psi_mean = r2.Psi_mean ∧ r2.Zeta_mean ≤ r1.Zeta_mean)

/-- The row order produced by `ORDER BY Psi_mean DESC, Zeta_mean ASC`. -/
def lowOrder (r1 r2 : Row) : Prop :=
  r2.Psi_mean < r1.Psi_mean ∨ (r1.Psi_mean = r2.Psi_mean ∧ r1.Zeta_mean ≤ r2.Zeta_mean)

instance : DecidableRel highOrder := fun r1 r2 => by
  unfold highOrder; infer_instance

instance : DecidableRel lowOrder := fun r1 r2 => by
  unfold lowOrder; infer_instance

instance : IsTotal Row highOrder where
  total r1 r2 := by
    unfold highOrder
    rcases lt_trichotomy r1.Psi_mean r2.Psi_mean with h | h | h
    · exact Or.inr (Or.inl h)
    · rcases le_total r2.Zeta_mean r1.Zeta_mean with hz | hz
      · exact Or.inl (Or.inr ⟨h, hz⟩)
      · exact Or.inr (Or.inr ⟨h.symm, hz⟩)
    · exact Or.inl (Or.inl h)

instance : IsTotal Row lowOrder where
  total r1 r2 := by
    unfold lowOrder
    rcases lt_trichotomy r1.Psi_mean r2.Psi_mean with h | h | h
    · exact Or.inr (Or.inl h)
    · rcases le_total r1.Zeta_mean r2.Zeta_mean with hz | hz
      · exact Or.inl (Or.inr ⟨h, hz⟩)
      · exact Or.inr (Or.inr ⟨h.symm, hz⟩)
    · exact Or.inl (Or.inl h)

instance : IsTrans Row highOrder where
  trans r1 r2 r3 h12 h23 := by
    unfold highOrder at *
    rcases h12 with h12 | ⟨he12, hz12⟩
    · rcases h23 with h23 | ⟨he23, _⟩
      · exact Or.inl (h23.trans h12)
      · exact Or.inl (he23 ▸ h12)
    · rcases h23 with h23 | ⟨he23, hz23⟩
      · exact Or.inl (he12 ▸ h23)
      · exact Or.inr ⟨he12.trans he23, hz23.trans hz12⟩

instance : IsTrans Row lowOrder where
  trans r1 r2 r3 h12 h23 := by
    unfold lowOrder at *
    rcases h12 with h12 | ⟨he12, hz12⟩
    · rcases h23 with h23 | ⟨he23, _⟩
      · exact Or.inl (h23.trans h12)
      · exact Or.inl (he23 ▸ h12)
    · rcases h23 with h23 | ⟨he23, hz23⟩
      · exact Or.inl (he12 ▸ h23)
      · exact Or.inr ⟨he12.trans he23, hz12.trans hz23⟩

/-- `/highly_specific`: rows of `table_1` with matching level and type,
`Psi_mean > psi_cutoff` and `Zeta_mean > zeta_cutoff`, ordered by
`Psi_mean DESC, Zeta_mean DESC`. -/
def extract_highly_specific (db : DB) (analysis_level analysis_type : String)
    (psi_cutoff zeta_cutoff : Rat) : List Row :=
  List.insertionSort highOrder (db.table_1.filter fun r =>
    decide (r.Analysis_level = analysis_level ∧ r.Analysis_type = analysis_type ∧
      psi_cutoff < r.Psi_mean ∧ zeta_cutoff < r.Zeta_mean))

/-- `/non_specific`: rows of `table_1` with matching level and type,
`Psi_mean > psi_cutoff` and `Zeta_mean < zeta_cutoff`, ordered by
`Psi_mean DESC, Zeta_mean ASC`. -/
def extract_non_specific (db : DB) (analysis_level analysis_type : String)
    (psi_cutoff zeta_cutoff : Rat) : List Row :=
  List.insertionSort lowOrder (db.table_1.filter fun r =>
    decide (r.Analysis_level = analysis_level ∧ r.Analysis_type = analysis_type ∧
      psi_cutoff < r.Psi_mean ∧ r.Zeta_mean < zeta_cutoff))

/-! ## Identifier-set lookup (`/specificity`) -/

/-- SQLite `COLLATE NOCASE` equality (ASCII case folding), which also matches
Python's case folding on the ASCII identifiers stored in the DB. -/
def nocaseEq (a b : String) : Bool := pyLower a == pyLower b

/-- `x COLLATE NOCASE IN (g1, ..., gn)`. -/
def nocaseMem (x : String) (gl : List String) : Bool :=
  gl.any fun g => nocaseEq x g

/-- The row set returned by `/specificity`: rows of `table_1` whose
`gene_name` or `ensembl_id` matches (NOCASE) one of the normalized inputs.
The query has no ORDER BY, so rows keep table order. -/
def extract_all_specificity_rows (db : DB) (gene_list : List String) : List Row :=
  let gl := normalize_gene_inputs gene_list
  db.table_1.filter fun r => nocaseMem r.gene_name gl || nocaseMem r.ensembl_id gl

/-- The download filename built by `/specificity` (from the normalized list,
which is what `gene_list` holds at that point in the source). -/
def extract_all_specificity_filename (gene_list : List String) : String :=
  let gl := normalize_gene_inputs gene_list
  if gl.length ≤ 3 then
    String.intercalate "_" (gl.map pySpaceToUnderscore) ++ "_specificity.csv"
  else
    toString gl.length ++ "_specificity.csv"

/-! ## Partition dump (`/psi_block`) -/

/-- Python truthiness of the optional `gene_list` parameter: `None` and `[]`
are both falsy. -/
def truthyList : Option (List String) → Option (List String)
  | some (g :: gs) => some (g :: gs)
  | _ => none

/-- `/psi_block`: dump of the `{level}_{type}` table, optionally filtered by
an identifier set; a missing table raises HTTP 404.  Returns the result rows
and the download filename. -/
def extract_psi_block (db : DB) (analysis_level analysis_type : String)
    (gene_list : Option (List String)) : Except ApiErr (List PRow × String) :=
  let table_name := analysis_level ++ "_" ++ analysis_type
  match db.partitions table_name with
  | none => .error ⟨404, "Table '" ++ table_name ++ "' not found."⟩
  | some pt =>
    match truthyList gene_list with
    | some gl0 =>
      let gl := normalize_gene_inputs gl0
      let rows := pt.rows.filter fun r =>
        nocaseMem r.gene_name gl || nocaseMem r.ensembl_id gl
      let filename :=
        if gl.length ≤ 3 then
          String.intercalate "_" (gl.map pySpaceToUnderscore) ++
            "_" ++ table_name ++ "_psi_block.csv"
        else
          toString gl.length ++ "_" ++ table_name ++ "_psi_block.csv"
      .ok (rows, filename)
    | none =>
      .ok (pt.rows, "all_" ++ table_name ++ "_psi_block.csv")

/-! ## Schema discovery and `/config` -/

/-- `get_unique_values`: distinct non-NULL values of a column of `table_1`,
sorted.  The whole body is wrapped in `try/except` returning `[]`, so an
unreachable store (`none`) yields `[]`.  The column is given as an accessor
standing for the named column (`NULL` = `none`). -/
def get_unique_values (db : Option DB) (column : Row → Option String) :
    List String :=
  match db with
  | none => []
  | some db => List.insertionSort (· ≤ ·) (db.table_1.filterMap column).dedup

/-- `get_columns_from_table`: column names of a table minus the two identifier
columns; an unreachable store gives `[]` (exception caught) and a missing
table gives `[]` (`PRAGMA table_info` returns no rows). -/
def get_columns_from_table (db : Option DB) (table_name : String) :
    List String :=
  match db with
  | none => []
  | some db =>
    match db.partitions table_name with
    | none => []
    | some pt => pt.columns.filter fun c => !(c == "gene_name" || c == "ensembl_id")

/-- The two response shapes of `/config`. -/
inductive ConfigResp where
  | single (analysis_level analysis_type : String) (block_labels : List String)
  | full (analysis_config : List (String × List (String × List String)))
deriving DecidableEq, Repr

def excluded_cols : List String :=
  ["gene_name", "ensembl_id", "Analysis_level", "Analysis_type"]

/-- `/config` (`get_analysis_config`): with both parameters, the block labels
of that one table (404 if none); otherwise — including when exactly one
parameter is supplied — the full nested directory built from the startup
`analysis_levels` / `analysis_types` lists (404 if empty). -/
def get_analysis_config (db : Option DB)
    (analysis_levels analysis_types : List String)
    (analysis_level analysis_type : Option String) : Except ApiErr ConfigResp :=
  match analysis_level, analysis_type with
  | some l, some t =>
    let table_name := l ++ "_" ++ t
    let filtered := (get_columns_from_table db table_name).filter
      fun c => !(excluded_cols.contains c)
    if filtered.isEmpty then
      .error ⟨404, "No valid block labels found for " ++ table_name⟩
    else
      .ok (.single l t filtered)
  | _, _ =>
    let config := analysis_levels.map fun level =>
      (level, analysis_types.filterMap fun a_type =>
        let filtered := (get_columns_from_table db (level ++ "_" ++ a_type)).filter
          fun c => !(excluded_cols.contains c)
        if filtered.isEmpty then none else some (a_type, filtered))
    if config.isEmpty then
      .error ⟨404, "No valid analysis configuration found in database."⟩
    else
      .ok (.full config)

/-! ## Query text built by `/psi_block` and `/marker`

The claims about identifier quoting are about the literal SQL text, so the
f-strings of the source are embedded verbatim (cutoffs are taken as their
rendered numeric literals, which is how the f-string receives them). -/

/-- The base query of `/psi_block`: `SELECT * FROM '{table_name}'` — the
table name lands between single quotes (string-literal syntax). -/
def psi_block_base_query (table_name : String) : String :=
  "SELECT * FROM " ++ ("'" ++ table_name ++ "'")

/-- The JOIN query of `/marker`, built exactly as in the source: the table
name and the block-label column are wrapped in double quotes (the quotes are
part of the f-string template, grouped here with the interpolated name) with
no escaping of embedded quote characters. -/
def marker_query (analysis_level analysis_type block_label : String)
    (psi_cutoff psi_block_cutoff : String) : String :=
  "\n        SELECT T1.*, T2." ++ ("\"" ++ block_label ++ "\"") ++
    "\n        FROM \"table_1\" AS T1\n        INNER JOIN " ++
    ("\"" ++ (analysis_level ++ "_" ++ analysis_type) ++ "\"") ++
    " AS T2\n            ON T1.gene_name = T2.gene_name\n        WHERE T1.Analysis_level = '" ++
    analysis_level ++ "'\n          AND T1.Analysis_type = '" ++ analysis_type ++
    "'\n          AND T1.Psi_mean > " ++ psi_cutoff ++ "\n          AND T2." ++
    ("\"" ++ block_label ++ "\"") ++ " > " ++ psi_block_cutoff ++
    "\n        ORDER BY T1.Psi_mean DESC, T2." ++ ("\"" ++ block_label ++ "\"") ++
    " DESC\n    "

/-- Modelled from the spec: escape every embedded double quote by doubling. -/
def escapeQuotes : List Char → List Char
  | [] => []
  | c :: cs => if c = '"' then '"' :: '"' :: escapeQuotes cs else c :: escapeQuotes cs

/-- Modelled from the spec: wrap a dynamic identifier in the store's
identifier-quoting syntax (SQLite double quotes) with embedded quote
characters escaped by doubling. -/
def quoteIdentSpec (s : String) : String :=
  "\"" ++ String.mk (escapeQuotes s.data) ++ "\""

/-- Modelled from the spec: the `/marker` query as the quoting policy demands
it — every dynamic table/column name passed through `quoteIdentSpec`. -/
def marker_query_spec (analysis_level analysis_type block_label : String)
    (psi_cutoff psi_block_cutoff : String) : String :=
  "\n        SELECT T1.*, T2." ++ quoteIdentSpec block_label ++ "\n        FROM \"table_1\" AS T1\n        INNER JOIN " ++
    quoteIdentSpec (analysis_level ++ "_" ++ analysis_type) ++ " AS T2\n            ON T1.gene_name = T2.gene_name\n        WHERE T1.Analysis_level = '" ++
    analysis_level ++ "'\n          AND T1.Analysis_type = '" ++ analysis_type ++ "'\n          AND T1.Psi_mean > " ++
    psi_cutoff ++ "\n          AND T2." ++ quoteIdentSpec block_label ++ " > " ++ psi_block_cutoff ++
    "\n        ORDER BY T1.Psi_mean DESC, T2." ++ quoteIdentSpec block_label ++ " DESC\n    "

/-- Modelled from the spec: title-casing as the spec describes the
normalization of display names — "first letter of each word capitalized"
(word starts = start of string and after a space), other letters lowercased
per Python `str.title` semantics. -/
def specTitleCaseChars : Bool → List Char → List Char
  | _, [] => []
  | wordStart, c :: cs =>
    (if wordStart then c.toUpper else c.toLower) :: specTitleCaseChars (c = ' ') cs

/-- Modelled from the spec: title-case a display name. -/
def specTitleCase (s : String) : String :=
  String.mk (specTitleCaseChars true s.data)

/-- Modelled from the spec: filename rule of the materializer, applied to the
request's identifier list — "the filename embeds the (space-sanitized)
identifiers joined by underscore" when there are at most 3, otherwise the
count. -/
def specFilename (gene_list : List String) : String :=
  if gene_list.length ≤ 3 then
    String.intercalate "_" (gene_list.map pySpaceToUnderscore) ++ "_specificity.csv"
  else
    toString gene_list.length ++ "_specificity.csv"

/-! ## Sample data for concrete checks -/

/-- A store with no partition tables. -/
def emptyDB : DB := ⟨[], fun _ => none⟩

/-- A sample `table_1` row. -/
def xistRow : Row :=
  ⟨"Xist", "ENSMUSG00000086503", "Tissue", "Strain", 9/10, 1/100, 1/2, 1/100⟩

/-- A sample partition table whose only non-identifier column is `b1`. -/
def demoPTable : PTable := ⟨["gene_name", "ensembl_id", "b1"], []⟩

/-- A one-partition store used by the concrete checks. -/
def demoDB : DB :=
  ⟨[xistRow], fun n => if n = "L_T" then some demoPTable else none⟩

/-! ## Normalization lemmas -/

theorem map_comp_eq {f g h : Char → Char} (H : ∀ c, g (f c) = h c) :
    ∀ l : List Char, (l.map f).map g = l.map h := by
  intro l
  induction l with
  | nil => rfl
  | cons c cs ih => simp only [List.map_cons, H c, ih]

theorem pyUpper_pyUpper (s : String) : pyUpper (pyUpper s) = pyUpper s :=
  congrArg String.mk (map_comp_eq toUpper_toUpper s.data)

theorem pyUpper_pyCapitalize (s : String) : pyUpper (pyCapitalize s) = pyUpper s := by
  unfold pyCapitalize pyUpper
  cases hd : s.data with
  | nil => simp [hd]
  | cons c cs =>
    simp only [hd, List.map_cons, toUpper_toUpper c, map_comp_eq toUpper_toLower cs]

theorem ensLike_of_pyUpper_eq {g1 g2 : String} (h : pyUpper g1 = pyUpper g2) :
    ensLike g1 = ensLike g2 := by
  unfold ensLike
  rw [h]

theorem pyCapitalize_pyCapitalize (s : String) :
    pyCapitalize (pyCapitalize s) = pyCapitalize s := by
  unfold pyCapitalize
  cases hd : s.data with
  | nil => simp
  | cons c cs =>
    simp only [List.map_cons, toUpper_toUpper c, map_comp_eq toLower_toLower cs]

theorem map_toUpper_congr : ∀ {l1 l2 : List Char},
    l1.map Char.toLower = l2.map Char.toLower →
    l1.map Char.toUpper = l2.map Char.toUpper := by
  intro l1
  induction l1 with
  | nil =>
    intro l2 h
    cases l2 with
    | nil => rfl
    | cons d ds => simp at h
  | cons c cs ih =>
    intro l2 h
    cases l2 with
    | nil => simp at h
    | cons d ds =>
      simp only [List.map_cons, List.cons.injEq] at h ⊢
      exact ⟨toUpper_congr_of_toLower_eq h.1, ih h.2⟩

theorem pyLower_data_eq {g1 g2 : String} (h : pyLower g1 = pyLower g2) :
    g1.data.map Char.toLower = g2.data.map Char.toLower :=
  congrArg String.data h

theorem pyUpper_congr {g1 g2 : String} (h : pyLower g1 = pyLower g2) :
    pyUpper g1 = pyUpper g2 :=
  congrArg String.mk (map_toUpper_congr (pyLower_data_eq h))

theorem pyCapitalize_congr {g1 g2 : String} (h : pyLower g1 = pyLower g2) :
    pyCapitalize g1 = pyCapitalize g2 := by
  have hd := pyLower_data_eq h
  unfold pyCapitalize
  cases h1 : g1.data with
  | nil =>
    cases h2 : g2.data with
    | nil => rfl
    | cons d ds => rw [h1, h2] at hd; simp at hd
  | cons c cs =>
    cases h2 : g2.data with
    | nil => rw [h1, h2] at hd; simp at hd
    | cons d ds =>
      rw [h1, h2] at hd
      simp only [List.map_cons, List.cons.injEq] at hd
      simp only [List.cons.injEq]
      exact congrArg String.mk (by
        rw [toUpper_congr_of_toLower_eq hd.1, hd.2])

/-- The single-token branch of `normalize_gene_inputs`. -/
theorem normalize_one_congr {g1 g2 : String} (h : pyLower g1 = pyLower g2) :
    (if ensLike g1 then pyUpper g1 else pyCapitalize g1) =
      (if ensLike g2 then pyUpper g2 else pyCapitalize g2) := by
  have hu := pyUpper_congr h
  rw [ensLike_of_pyUpper_eq hu]
  cases hb : ensLike g2 with
  | false => simp [hb, pyCapitalize_congr h]
  | true => simp [hb, hu]

theorem normalize_gene_inputs_append (a b : List String) :
    normalize_gene_inputs (a ++ b) =
      normalize_gene_inputs a ++ normalize_gene_inputs b := by
  induction a with
  | nil => rfl
  | cons g gs ih => simp [normalize_gene_inputs, ih]

theorem normalize_gene_inputs_length (gl : List String) :
    (normalize_gene_inputs gl).length = gl.length := by
  induction gl with
  | nil => rfl
  | cons g gs ih => simp only [normalize_gene_inputs, List.length_cons, ih]

/-! ## Quoting lemmas -/

theorem escapeQuotes_of_no_quote : ∀ {l : List Char}, '"' ∉ l → escapeQuotes l = l := by
  intro l
  induction l with
  | nil => intro _; rfl
  | cons c cs ih =>
    intro h
    have hc : c ≠ '"' := fun he => h (he ▸ List.mem_cons_self c cs)
    have hcs : '"' ∉ cs := fun hm => h (List.mem_cons_of_mem c hm)
    unfold escapeQuotes
    rw [if_neg hc, ih hcs]

theorem quoteIdentSpec_of_no_quote {s : String} (h : '"' ∉ s.data) :
    quoteIdentSpec s = "\"" ++ s ++ "\"" := by
  unfold quoteIdentSpec
  rw [escapeQuotes_of_no_quote h]

/-! ## Claim theorems -/

/-- C1 (counterexample): a block label containing a double quote is
interpolated into the `/marker` query verbatim — the built query is not the
one the quoting policy (wrapping plus escape-by-doubling) produces. -/
theorem marker_query_unescaped_quote :
    marker_query "Tissue" "Strain" "a\"b" "0.5" "0.5" ≠
      marker_query_spec "Tissue" "Strain" "a\"b" "0.5" "0.5" := by
  decide

/-- C1 (amended): the `/marker` table name and block-label column are wrapped
in double-quote identifier syntax but embedded quote characters are never
escaped — for names free of double quotes the built query coincides with the
fully escaped one of the quoting policy; the `/psi_block` table name is
interpolated between single quotes, never in the identifier-quoting form. -/
theorem dynamic_identifier_quoting_amended :
    (∀ analysis_level analysis_type block_label psi_c psi_block_c : String,
      '"' ∉ analysis_level.data → '"' ∉ analysis_type.data →
      '"' ∉ block_label.data →
      marker_query analysis_level analysis_type block_label psi_c psi_block_c =
        marker_query_spec analysis_level analysis_type block_label psi_c psi_block_c) ∧
    (∀ table_name : String,
      psi_block_base_query table_name ≠ "SELECT * FROM " ++ quoteIdentSpec table_name) := by
  constructor
  · intro al a_type bl pc bc hal hat hbl
    have htab : '"' ∉ (al ++ "_" ++ a_type).data := by
      rw [String.data_append, String.data_append]
      intro hm
      rcases List.mem_append.mp hm with hm | hm
      · rcases List.mem_append.mp hm with hm | hm
        · exact hal hm
        · simp at hm
      · exact hat hm
    rw [marker_query_spec, quoteIdentSpec_of_no_quote hbl,
      quoteIdentSpec_of_no_quote htab]
    rfl
  · intro tn h
    have hd := congrArg String.data h
    rw [psi_block_base_query, quoteIdentSpec] at hd
    simp only [String.data_append] at hd
    have hdd := List.append_cancel_left hd
    simp at hdd

/-- C1 (witness for the amended theorem): quote-free names make the built
query and the policy-escaped query literally equal. -/
theorem dynamic_identifier_quoting_check :
    marker_query "Tissue" "Strain" "B6 block" "0.5" "0.5" =
      marker_query_spec "Tissue" "Strain" "B6 block" "0.5" "0.5" :=
  dynamic_identifier_quoting_amended.1 "Tissue" "Strain" "B6 block" "0.5" "0.5"
    (by decide) (by decide) (by decide)

/-- C6 (counterexample): on the two-word token `"ab cd"` the code produces
`"Ab cd"` (Python `str.capitalize`), while title-casing every word — what the
claim states — produces `"Ab Cd"`. -/
theorem normalize_not_titlecase :
    normalize_gene_inputs ["ab cd"] = ["Ab cd"] ∧
      specTitleCase "ab cd" = "Ab Cd" ∧ ("Ab cd" : String) ≠ "Ab Cd" := by
  refine ⟨by decide, by decide, by decide⟩

/-- C6 (amended): a token that upper-cases to an `ENS`-prefixed string is
upper-cased; any other token gets only its FIRST character upper-cased and
every remaining character lower-cased (Python `str.capitalize`), not
per-word title-casing. -/
theorem normalize_capitalize_amended (g : String) (c : Char) (cs : List Char)
    (hg : g.data = c :: cs) :
    (ensLike g = true ↔ ∃ rest, (pyUpper g).data = 'E' :: 'N' :: 'S' :: rest) ∧
    (ensLike g = true → normalize_gene_inputs [g] = [pyUpper g]) ∧
    (ensLike g = false →
      normalize_gene_inputs [g] = [String.mk (c.toUpper :: cs.map Char.toLower)]) := by
  refine ⟨?_, ?_, ?_⟩
  · unfold ensLike
    split
    · next rest heq => exact iff_of_true rfl ⟨rest, heq⟩
    · next hne =>
      simp only [Bool.false_eq_true, false_iff, not_exists]
      intro rest heq
      exact hne rest heq
  · intro h
    simp [normalize_gene_inputs, h]
  · intro h
    simp [normalize_gene_inputs, h, pyCapitalize, hg]

/-- C6 (witness for the amended theorem): `"ab cd"` is not ENS-like and
normalizes to `"Ab cd"`. -/
theorem normalize_capitalize_check :
    normalize_gene_inputs ["ab cd"] =
      [String.mk ('a'.toUpper :: ['b', ' ', 'c', 'd'].map Char.toLower)] :=
  (normalize_capitalize_amended "ab cd" 'a' ['b', ' ', 'c', 'd'] rfl).2.2 (by decide)

/-- C10: `normalize_gene_inputs` is idempotent — normalizing an
already-normalized list changes nothing. -/
theorem normalize_gene_inputs_idempotent (gene_list : List String) :
    normalize_gene_inputs (normalize_gene_inputs gene_list) =
      normalize_gene_inputs gene_list := by
  induction gene_list with
  | nil => rfl
  | cons g gs ih =>
    simp only [normalize_gene_inputs, ih, List.cons.injEq, and_true]
    cases hb : ensLike g with
    | true =>
      have he : ensLike (pyUpper g) = true := by
        rw [ensLike_of_pyUpper_eq (pyUpper_pyUpper g), hb]
      simp [hb, he, pyUpper_pyUpper]
    | false =>
      have he : ensLike (pyCapitalize g) = false := by
        rw [ensLike_of_pyUpper_eq (pyUpper_pyCapitalize g), hb]
      simp [hb, he, pyCapitalize_pyCapitalize]

/-- C4: replacing a token of an identifier-set lookup by a variant that
differs only in letter case (same ASCII case folding) leaves the result set
of `/specificity` unchanged. -/
theorem specificity_lookup_case_insensitive (db : DB) (pre suf : List String)
    (g1 g2 : String) (h : pyLower g1 = pyLower g2) :
    extract_all_specificity_rows db (pre ++ g1 :: suf) =
      extract_all_specificity_rows db (pre ++ g2 :: suf) := by
  have hn : normalize_gene_inputs (pre ++ g1 :: suf) =
      normalize_gene_inputs (pre ++ g2 :: suf) := by
    rw [normalize_gene_inputs_append, normalize_gene_inputs_append]
    congr 1
    simp only [normalize_gene_inputs]
    rw [normalize_one_congr h]
  unfold extract_all_specificity_rows
  rw [hn]

/-- C4 (witness): `"Xist"` and `"XIST"` give the same result set on a
concrete store. -/
theorem specificity_lookup_case_insensitive_check :
    extract_all_specificity_rows demoDB ["Xist"] =
      extract_all_specificity_rows demoDB ["XIST"] :=
  specificity_lookup_case_insensitive demoDB [] [] "Xist" "XIST" (by decide)

/-- C5 (counterexample): for the request list `["XIST"]` the code's filename
embeds the normalized identifier (`Xist`), not the request's identifier as
the claim states. -/
theorem specificity_filename_raw_counterexample :
    extract_all_specificity_filename ["XIST"] = "Xist_specificity.csv" ∧
      specFilename ["XIST"] = "XIST_specificity.csv" ∧
      ("Xist_specificity.csv" : String) ≠ "XIST_specificity.csv" := by
  refine ⟨by decide, by decide, by decide⟩

/-- C5 (amended): the `/specificity` filename is content-derived as claimed
but from the NORMALIZED identifiers: at most 3 entries give the
space-sanitized normalized identifiers joined by underscores plus
`_specificity.csv`, more than 3 give the count plus `_specificity.csv`
(normalization preserves the count). -/
theorem specificity_filename_normalized_amended (gene_list : List String) :
    (gene_list.length ≤ 3 →
      extract_all_specificity_filename gene_list =
        String.intercalate "_"
          ((normalize_gene_inputs gene_list).map pySpaceToUnderscore) ++
          "_specificity.csv") ∧
    (3 < gene_list.length →
      extract_all_specificity_filename gene_list =
        toString gene_list.length ++ "_specificity.csv") := by
  have hl := normalize_gene_inputs_length gene_list
  constructor
  · intro h
    unfold extract_all_specificity_filename
    rw [if_pos (by omega)]
  · intro h
    unfold extract_all_specificity_filename
    rw [if_neg (by omega), hl]

/-- C5 (witness for the amended theorem): `["XIST", "Tsix"]` gives
`Xist_Tsix_specificity.csv`. -/
theorem specificity_filename_normalized_check :
    extract_all_specificity_filename ["XIST", "Tsix"] = "Xist_Tsix_specificity.csv" :=
  ((specificity_filename_normalized_amended ["XIST", "Tsix"]).1 (by decide)).trans
    (by decide)

/-- Any order property transported along `insertionSort` holds between all
adjacent rows of the sorted output. -/
theorem chain'_insertionSort_of (r : Row → Row → Prop) [DecidableRel r]
    [IsTotal Row r] [IsTrans Row r] (S : Row → Row → Prop)
    (H : ∀ a b : Row, r a b → S a b) (l : List Row) :
    List.Chain' S (List.insertionSort r l) :=
  List.Pairwise.chain' (List.Pairwise.imp (fun h => H _ _ h)
    (List.sorted_insertionSort r l))

/-- C2: both rank filters compare strictly — `/highly_specific` keeps exactly
the rows with matching level/type, `Psi_mean` strictly above the psi cutoff
and `Zeta_mean` strictly above the zeta cutoff; `/non_specific` the same with
`Zeta_mean` strictly below; a row whose `Zeta_mean` equals the cutoff is in
neither result. -/
theorem rank_filters_strict_cutoffs (db : DB) (analysis_level analysis_type : String)
    (psi_cutoff zeta_cutoff : Rat) (r : Row) :
    (r ∈ extract_highly_specific db analysis_level analysis_type psi_cutoff zeta_cutoff ↔
      r ∈ db.table_1 ∧ r.Analysis_level = analysis_level ∧
        r.Analysis_type = analysis_type ∧ psi_cutoff < r.Psi_mean ∧
        zeta_cutoff < r.Zeta_mean) ∧
    (r ∈ extract_non_specific db analysis_level analysis_type psi_cutoff zeta_cutoff ↔
      r ∈ db.table_1 ∧ r.Analysis_level = analysis_level ∧
        r.Analysis_type = analysis_type ∧ psi_cutoff < r.Psi_mean ∧
        r.Zeta_mean < zeta_cutoff) ∧
    (r.Zeta_mean = zeta_cutoff →
      r ∉ extract_highly_specific db analysis_level analysis_type psi_cutoff zeta_cutoff ∧
      r ∉ extract_non_specific db analysis_level analysis_type psi_cutoff zeta_cutoff) := by
  have hhigh : r ∈ extract_highly_specific db analysis_level analysis_type
        psi_cutoff zeta_cutoff ↔
      r ∈ db.table_1 ∧ r.Analysis_level = analysis_level ∧
        r.Analysis_type = analysis_type ∧ psi_cutoff < r.Psi_mean ∧
        zeta_cutoff < r.Zeta_mean := by
    unfold extract_highly_specific
    rw [(List.perm_insertionSort highOrder _).mem_iff, List.mem_filter,
      decide_eq_true_iff]
  have hlow : r ∈ extract_non_specific db analysis_level analysis_type
        psi_cutoff zeta_cutoff ↔
      r ∈ db.table_1 ∧ r.Analysis_level = analysis_level ∧
        r.Analysis_type = analysis_type ∧ psi_cutoff < r.Psi_mean ∧
        r.Zeta_mean < zeta_cutoff := by
    unfold extract_non_specific
    rw [(List.perm_insertionSort lowOrder _).mem_iff, List.mem_filter,
      decide_eq_true_iff]
  refine ⟨hhigh, hlow, fun hz => ⟨fun hmem => ?_, fun hmem => ?_⟩⟩
  · have hlt := (hhigh.mp hmem).2.2.2.2
    rw [hz] at hlt
    exact lt_irrefl _ hlt
  · have hlt := (hlow.mp hmem).2.2.2.2
    rw [hz] at hlt
    exact lt_irrefl _ hlt

/-- C2 (witness): a concrete row with `Zeta_mean` exactly at the cutoff is
absent from both result sets. -/
theorem rank_filters_strict_cutoffs_check :
    xistRow ∉ extract_highly_specific demoDB "Tissue" "Strain" (1/4) (1/2) ∧
    xistRow ∉ extract_non_specific demoDB "Tissue" "Strain" (1/4) (1/2) :=
  (rank_filters_strict_cutoffs demoDB "Tissue" "Strain" (1/4) (1/2) xistRow).2.2
    rfl

/-- C3: in the `/highly_specific` result adjacent rows are ordered by
`Psi_mean` descending with ties broken by `Zeta_mean` descending; in the
`/non_specific` result by `Psi_mean` descending with ties broken by
`Zeta_mean` ascending. -/
theorem rank_filters_ordering (db : DB) (analysis_level analysis_type : String)
    (psi_cutoff zeta_cutoff : Rat) :
    List.Chain' (fun r1 r2 => r2.Psi_mean ≤ r1.Psi_mean ∧
        (r1.Psi_mean = r2.Psi_mean → r2.Zeta_mean ≤ r1.Zeta_mean))
      (extract_highly_specific db analysis_level analysis_type psi_cutoff zeta_cutoff) ∧
    List.Chain' (fun r1 r2 => r2.Psi_mean ≤ r1.Psi_mean ∧
        (r1.Psi_mean = r2.Psi_mean → r1.Zeta_mean ≤ r2.Zeta_mean))
      (extract_non_specific db analysis_level analysis_type psi_cutoff zeta_cutoff) := by
  constructor
  · refine chain'_insertionSort_of highOrder _ ?_ _
    intro a b h
    rcases h with h | ⟨he, hz⟩
    · exact ⟨le_of_lt h, fun heq => absurd h (by simp [heq])⟩
    · exact ⟨le_of_eq he.symm, fun _ => hz⟩
  · refine chain'_insertionSort_of lowOrder _ ?_ _
    intro a b h
    rcases h with h | ⟨he, hz⟩
    · exact ⟨le_of_lt h, fun heq => absurd h (by simp [heq])⟩
    · exact ⟨le_of_eq he.symm, fun _ => hz⟩

/-- C7 (counterexample): with the store unreachable (`none`), schema
discovery for the level column yields the EMPTY list — there is no fallback
to a non-empty hardcoded default domain. -/
theorem schema_discovery_empty_fallback :
    get_unique_values none (fun r => some r.Analysis_level) = [] := rfl

/-- C7 (amended): when the store is unreachable, `get_unique_values` catches
the failure and degrades to the empty domain (so the service boots with
EMPTY level/type enums); with a reachable store it returns exactly the
distinct non-NULL values of the column. -/
theorem schema_discovery_fallback_amended :
    (∀ column : Row → Option String, get_unique_values none column = []) ∧
    (∀ (db : DB) (column : Row → Option String) (v : String),
      v ∈ get_unique_values (some db) column ↔ ∃ r ∈ db.table_1, column r = some v) := by
  refine ⟨fun column => rfl, fun db column v => ?_⟩
  unfold get_unique_values
  rw [(List.perm_insertionSort _ _).mem_iff, List.mem_dedup, List.mem_filterMap]

/-- C8: a validated (level, type) pair whose partition table is absent makes
`/psi_block` raise HTTP 404 (`TableNotFound`); it never returns a success
result. -/
theorem psi_block_missing_table_404 (db : DB) (analysis_level analysis_type : String)
    (gene_list : Option (List String))
    (h : db.partitions (analysis_level ++ "_" ++ analysis_type) = none) :
    extract_psi_block db analysis_level analysis_type gene_list =
      .error ⟨404, "Table '" ++ (analysis_level ++ "_" ++ analysis_type) ++
        "' not found."⟩ ∧
    ∀ res : List PRow × String,
      extract_psi_block db analysis_level analysis_type gene_list ≠ .ok res := by
  have he : extract_psi_block db analysis_level analysis_type gene_list =
      .error ⟨404, "Table '" ++ (analysis_level ++ "_" ++ analysis_type) ++
        "' not found."⟩ := by
    simp only [extract_psi_block, h]
  exact ⟨he, fun res hok => by rw [he] at hok; cases hok⟩

/-- C8 (witness): on a store with no partition tables, `/psi_block` for
(Tissue, Strain) is the 404 error. -/
theorem psi_block_missing_table_404_check :
    extract_psi_block emptyDB "Tissue" "Strain" none =
      .error ⟨404, "Table '" ++ ("Tissue" ++ "_" ++ "Strain") ++ "' not found."⟩ :=
  (psi_block_missing_table_404 emptyDB "Tissue" "Strain" none rfl).1

/-- C9 (counterexample): on a concrete store, `/config` with only the level
parameter succeeds with the FULL directory — no
`InvalidParameterCombination` error is surfaced. -/
theorem config_lone_param_full_directory :
    get_analysis_config (some demoDB) ["L"] ["T"] (some "L") none =
      .ok (.full [("L", [("T", ["b1"])])]) := rfl

/-- C9 (amended): a call supplying exactly one of the two parameters silently
ignores it — the result is identical to the call supplying neither, i.e. the
full nested directory (or its 404 when the directory is empty). -/
theorem config_lone_param_ignored_amended (db : Option DB)
    (analysis_levels analysis_types : List String) (l t : String) :
    get_analysis_config db analysis_levels analysis_types (some l) none =
      get_analysis_config db analysis_levels analysis_types none none ∧
    get_analysis_config db analysis_levels analysis_types none (some t) =
      get_analysis_config db analysis_levels analysis_types none none :=
  ⟨rfl, rfl⟩

end EightCube
